import Mathlib

/-!
# Verification of the Muuto item-number lookup app

Shallow embedding of `src/streamlit_muuto_lookup_app.py`: the input tokenizer
(`parse_pasted_ids`), the Google-Sheets URL rewrite (`to_csv_export_url`),
the case-insensitive column resolution (`map_case_insensitive`), the output
column selection/renaming (`select_order_and_rename`), and the top-level
lookup flow (mask / matched rows / not-found list / metrics), together with
theorems settling the specification claims.

A dataframe is modelled as a list of column names plus rows given as
association lists from column name to an optional cell value (`none` models a
null cell, as produced for output columns absent from the reference table).
-/

namespace Muuto

/-! ## Python string primitives -/

/-- Characters stripped by Python `str.strip()` (ASCII whitespace). -/
def isPyWs (c : Char) : Bool :=
  c.toNat = 32 || c.toNat = 9 || c.toNat = 10 || c.toNat = 13 || c.toNat = 11 || c.toNat = 12

/-- Python `str.strip(chars)` on a character list: drop leading and trailing
characters satisfying `p`. -/
def pyStripChars (p : Char → Bool) (l : List Char) : List Char :=
  ((l.dropWhile p).reverse.dropWhile p).reverse

/-- Python `str.strip()` on a character list. -/
def stripList (l : List Char) : List Char := pyStripChars isPyWs l

/-- Python `str.strip()` on a string. -/
def pyStrip (s : String) : String := String.mk (stripList s.toList)

/-- Python `str.lower()` on one character (ASCII; every column name handled
by the app is ASCII). -/
def lowerChar (c : Char) : Char :=
  if 65 ≤ c.toNat ∧ c.toNat ≤ 90 then Char.ofNat (c.toNat + 32) else c

/-- Python `str.lower()` on a string. -/
def pyLower (s : String) : String := String.mk (s.toList.map lowerChar)

/-! ## Input tokenizer (`parse_pasted_ids`, source lines 119-133) -/

/-- The delimiter class of `re.split(r"[\s,;]+", ...)`. -/
def isDelim (c : Char) : Bool := isPyWs c || c == ',' || c == ';'

/-- `re.split(r"[\s,;]+", s)`: split on maximal runs of delimiters. `gap`
records whether the previous character was a delimiter (so a further
delimiter extends the same run instead of emitting an empty token); the
accumulator holds the current token reversed. -/
def splitRunsCore (gap : Bool) (acc : List Char) : List Char → List (List Char)
  | [] => [acc.reverse]
  | c :: cs =>
    if isDelim c then
      if gap then splitRunsCore true [] cs
      else acc.reverse :: splitRunsCore true [] cs
    else splitRunsCore false (c :: acc) cs

/-- Per-token cleanup `t.strip().strip('"').strip("'")`:
whitespace, then every surrounding double quote, then every surrounding
single quote. -/
def cleanupToken (t : List Char) : List Char :=
  pyStripChars (fun c => c == '\'') (pyStripChars (fun c => c == '"') (pyStripChars isPyWs t))

/-- The cleaned token list of `parse_pasted_ids` before deduplication:
split the stripped input on delimiter runs, keep tokens that are non-empty
after whitespace stripping, and clean each one. -/
def cleanedTokens (raw : String) : List String :=
  if raw = "" then []
  else
    ((splitRunsCore false [] (stripList raw.toList)).filter
        (fun t => !(pyStripChars isPyWs t).isEmpty)).map
      (fun t => String.mk (cleanupToken t))

/-- The `seen`/`out` deduplication loop of `parse_pasted_ids`. -/
def dedupAux : List String → List String → List String
  | [], _ => []
  | t :: ts, seen =>
    if t ∈ seen then dedupAux ts seen else t :: dedupAux ts (t :: seen)

/-- `parse_pasted_ids` (source lines 119-133): unique identifiers from a
pasted text block, first occurrence first. -/
def parse_pasted_ids (raw : String) : List String :=
  dedupAux (cleanedTokens raw) []

/-! ## Google-Sheets URL rewrite (`to_csv_export_url`, source lines 136-149) -/

/-- Substring test, modelling Python `needle in hay`. -/
def hasSub (needle : List Char) : List Char → Bool
  | [] => needle.isEmpty
  | c :: t => List.isPrefixOf needle (c :: t) || hasSub needle t

/-- The literal part of the sheet-id regex
`https://docs.google.com/spreadsheets/d/([a-zA-Z0-9-_]+)`. -/
def SHEET_LIT : List Char := "https://docs.google.com/spreadsheets/d/".toList

/-- The character class `[a-zA-Z0-9-_]`. -/
def isIdChar (c : Char) : Bool := c.isAlpha || c.isDigit || c == '-' || c == '_'

/-- `re.search` for the sheet-id pattern: leftmost occurrence of the literal
followed by at least one id character; returns the greedy capture group. -/
def searchSheetId : List Char → Option (List Char)
  | [] => none
  | c :: t =>
    if List.isPrefixOf SHEET_LIT (c :: t) then
      let run := ((c :: t).drop SHEET_LIT.length).takeWhile isIdChar
      if run.isEmpty then searchSheetId t else some run
    else searchSheetId t

/-- `re.search` for `[?&#]gid=(\d+)`: leftmost punctuation character followed
by `gid=` and at least one digit; returns the greedy digit group. -/
def searchGid : List Char → Option (List Char)
  | [] => none
  | c :: t =>
    if (c == '?' || c == '&' || c == '#') && List.isPrefixOf ['g', 'i', 'd', '='] t then
      let run := (t.drop 4).takeWhile Char.isDigit
      if run.isEmpty then searchGid t else some run
    else searchGid t

/-- The marker substring checked by `to_csv_export_url`. -/
def CSV_MARKER : List Char := "export?format=csv".toList

/-- `to_csv_export_url` (source lines 136-149): empty input stays empty; a
stripped URL already containing the marker is returned as is; a URL without
a sheet id is returned stripped; otherwise the export URL is rebuilt from
the sheet id and the (defaulted) gid. -/
def to_csv_export_url (url : String) : String :=
  if url = "" then ""
  else if hasSub CSV_MARKER (stripList url.toList) then String.mk (stripList url.toList)
  else
    match searchSheetId (stripList url.toList) with
    | none => String.mk (stripList url.toList)
    | some sid =>
      String.mk (SHEET_LIT ++ sid ++ "/export?format=csv&gid=".toList ++
        ((searchGid (stripList url.toList)).getD ['0']))

/-! ## Dataframe model -/

/-- A row: association list from column name to optional cell value
(`none` is a null cell). -/
abbrev Row := List (String × Option String)

/-- A dataframe: ordered column names and rows. -/
structure DFrame where
  cols : List String
  rows : List Row
deriving DecidableEq, Repr

/-- Cell access by column name: value of the first entry for that column
(`none` when the column is absent from the row). -/
def lookupCell (r : Row) (c : String) : Option String :=
  match r.find? (fun p => p.1 == c) with
  | some p => p.2
  | none => none

/-- `OUTPUT_HEADERS` (source lines 25-32). -/
def OUTPUT_HEADERS : List String :=
  ["New Item No.", "OLD Item-variant", "Ean no.", "Description", "Family", "Category"]

/-- `required = OUTPUT_HEADERS + ["OLD Item-variant", "Ean no."]`
(source line 258). -/
def REQUIRED : List String := OUTPUT_HEADERS ++ ["OLD Item-variant", "Ean no."]

/-- `map_case_insensitive` (source lines 170-173): `lower_map` keeps the last
column for a given lowercase name, and the requested name is looked up by its
lowercase form. -/
def map_case_insensitive (df : DFrame) (name : String) : Option String :=
  (df.cols.filter (fun c => pyLower c == pyLower name)).getLast?

/-- Python truthiness of an optional string (`None` and `""` are falsy). -/
def truthy : Option String → Bool
  | none => false
  | some s => s ≠ ""

/-- `df[h] = None` on one row: null the entry if the column exists in the
row, otherwise append a null entry. -/
def setNullRow (h : String) (r : Row) : Row :=
  if (r.find? (fun p => p.1 == h)).isSome then
    r.map (fun p => if p.1 == h then (p.1, none) else p)
  else r ++ [(h, none)]

/-- `df[h] = None` on a dataframe (adds the column at the end if missing). -/
def dfSetNull (d : DFrame) (h : String) : DFrame :=
  ⟨if h ∈ d.cols then d.cols else d.cols ++ [h], d.rows.map (setNullRow h)⟩

/-- The column-selection loop of `select_order_and_rename` (source lines
179-187): for each requested header, select the resolved column when it
exists, otherwise add a null column; returns the mutated frame and the
selected column names in order. -/
def sorLoop (colmap : String → Option String) : DFrame → List String → DFrame × List String
  | d, [] => (d, [])
  | d, h :: hs =>
    match colmap h with
    | some a =>
      if a ≠ "" ∧ a ∈ d.cols then
        ((sorLoop colmap d hs).1, a :: (sorLoop colmap d hs).2)
      else
        ((sorLoop colmap (dfSetNull d h) hs).1, h :: (sorLoop colmap (dfSetNull d h) hs).2)
    | none =>
      ((sorLoop colmap (dfSetNull d h) hs).1, h :: (sorLoop colmap (dfSetNull d h) hs).2)

/-- The rename step of `select_order_and_rename` (source lines 192-194):
`rename_map = {colmap[h]: h for h in OUTPUT_HEADERS if colmap.get(h) and colmap[h] != h}`,
later headers overwriting earlier ones; a column not in the map keeps its name. -/
def renameTarget (colmap : String → Option String) (c : String) : String :=
  ((OUTPUT_HEADERS.filter
      (fun h => colmap h == some c && c != h && c != "")).getLast?).getD c

/-- `select_order_and_rename` (source lines 176-196). -/
def select_order_and_rename (df : DFrame) (colmap : String → Option String) : DFrame :=
  let p := sorLoop colmap df OUTPUT_HEADERS
  let pairs := p.2.map (fun c => (c, renameTarget colmap c))
  ⟨pairs.map Prod.snd,
   p.1.rows.map (fun r => pairs.map (fun q => (q.2, lookupCell r q.1)))⟩

/-! ## Top-level lookup flow (source lines 250-336) -/

/-- `work[old_col] = ...str.strip()` and likewise for the EAN column
(source lines 273-275). -/
def stripKeyCols (df : DFrame) (oc ec : String) : DFrame :=
  ⟨df.cols,
   df.rows.map (fun r =>
     r.map (fun p => if p.1 == oc || p.1 == ec then (p.1, p.2.map pyStrip) else p))⟩

/-- The row mask `work[old_col].isin(ids) | work[ean_col].isin(ids)`
(source line 306). -/
def rowMask (oc ec : String) (ids : List String) (r : Row) : Bool :=
  decide (lookupCell r oc ∈ ids.map some) || decide (lookupCell r ec ∈ ids.map some)

/-- `matches = work.loc[mask]` (source line 307). -/
def matchedRows (work : DFrame) (oc ec : String) (ids : List String) : List Row :=
  work.rows.filter (rowMask oc ec ids)

/-- `matched_keys` (source line 311): key values carried by the matched rows. -/
def matchedKeys (work : DFrame) (oc ec : String) (ids : List String) : List String :=
  (matchedRows work oc ec ids).filterMap (fun r => lookupCell r oc) ++
    (matchedRows work oc ec ids).filterMap (fun r => lookupCell r ec)

/-- `not_found = [x for x in ids if x not in matched_keys]` (source line 313). -/
def notFound (work : DFrame) (oc ec : String) (ids : List String) : List String :=
  ids.filter (fun x => decide (x ∉ matchedKeys work oc ec ids))

/-- The data handed to the presentation layer: result table, not-found list,
and the two metrics (source lines 316-331). -/
structure LookupResult where
  ordered : DFrame
  not_found : List String
  idsCount : Nat
  matchCount : Nat
deriving DecidableEq, Repr

/-- Outcome of one run of the page below the data-loading step: the two fatal
`st.error`/`st.stop` paths, the empty-input prompt, or results. -/
inductive AppOutcome where
  | loadError
  | columnError
  | emptyInput
  | results (res : LookupResult)
deriving DecidableEq, Repr

/-- `pandas.DataFrame.empty`: some axis has length zero. -/
def dfEmpty (df : DFrame) : Bool := df.rows.isEmpty || df.cols.isEmpty

/-- The top-level flow (source lines 250-336): empty-frame check, required
key-column validation, tokenization, mask lookup, not-found list, column
selection, and the two metrics `len(ids)` and `len(ordered)`. -/
def runApp (mapping_df : DFrame) (raw : String) : AppOutcome :=
  if dfEmpty mapping_df then AppOutcome.loadError
  else if !(truthy (map_case_insensitive mapping_df "OLD Item-variant") &&
            truthy (map_case_insensitive mapping_df "Ean no.")) then
    AppOutcome.columnError
  else
    let oc := (map_case_insensitive mapping_df "OLD Item-variant").getD ""
    let ec := (map_case_insensitive mapping_df "Ean no.").getD ""
    let work := stripKeyCols mapping_df oc ec
    let ids := parse_pasted_ids raw
    if ids.isEmpty then AppOutcome.emptyInput
    else
      let ms := matchedRows work oc ec ids
      let ordered := select_order_and_rename ⟨work.cols, ms⟩
        (fun n => map_case_insensitive mapping_df n)
      AppOutcome.results
        ⟨ordered, notFound work oc ec ids, ids.length, ordered.rows.length⟩

/-- Projection of a `results` outcome (defaulting on the error outcomes). -/
def resultOf : AppOutcome → LookupResult
  | AppOutcome.results r => r
  | _ => ⟨⟨[], []⟩, [], 0, 0⟩

/-- Cell of row `i`, column `c` of a frame. -/
def cellAt (df : DFrame) (i : Nat) (c : String) : Option String :=
  match df.rows.get? i with
  | some r => lookupCell r c
  | none => none

/-! ## Definitions following the spec's words, for comparison -/

/-- Modelled from the spec (section 4.1): deduplication keeping the first
occurrence of each token, preserving first-seen order. Compared with the
code's `seen`/`out` loop. -/
def firstOccurrenceDedup (l : List String) : List String :=
  l.foldl (fun acc t => if t ∈ acc then acc else acc ++ [t]) []

/-- Modelled from the spec: an input identifier is not found exactly when its
value appears in neither key column of the trimmed reference table. Compared
with the code's `matched_keys` detour. -/
def specNotFound (work : DFrame) (oc ec : String) (ids : List String) : List String :=
  ids.filter (fun x =>
    decide (¬ ((∃ r ∈ work.rows, lookupCell r oc = some x) ∨
               (∃ r ∈ work.rows, lookupCell r ec = some x))))

/-- Modelled from the spec: the number of unique input identifiers with at
least one matching reference row. Compared with the code's match metric. -/
def specUniqueMatchedCount (work : DFrame) (oc ec : String) (ids : List String) : Nat :=
  (ids.filter (fun x => decide (∃ r ∈ work.rows, rowMask oc ec [x] r = true))).length

/-! ## Concrete frames used by witnesses and counterexamples -/

/-- A reference row with the three key/output fields of the example tables. -/
def row3 (n o e : String) : Row :=
  [("New Item No.", some n), ("OLD Item-variant", some o), ("Ean no.", some e)]

/-- The columns of the example tables. -/
def refCols : List String := ["New Item No.", "OLD Item-variant", "Ean no."]

/-- The reference table of the spec's end-to-end example. -/
def exTable : DFrame := ⟨refCols, [row3 "N1" "O1" "E1", row3 "N2" "O1" "E2"]⟩

/-- A reference table with one row, legacy identifier `O1`. -/
def oneRowTable : DFrame := ⟨refCols, [row3 "N1" "O1" "E1"]⟩

/-- A reference table with two rows sharing the legacy identifier `X1`. -/
def dupKeyTable : DFrame := ⟨refCols, [row3 "N1" "X1" "E1", row3 "N2" "X1" "E2"]⟩

/-- A reference table exercising leading zeros, case and surrounding blanks
in the key columns. -/
def zeroCaseTable : DFrame :=
  ⟨refCols, [row3 "N1" "00123" "E1", row3 "N2" "ABC" "E2", row3 "N3" " X9 " "E3"]⟩

/-- A reference table whose column names differ in case from the requested
headers and which lacks a `Category` column. -/
def caseTable : DFrame :=
  ⟨["new item no.", "OLD Item-variant", "Ean no.", "DESCRIPTION", "Family"],
   [[("new item no.", some "n"), ("OLD Item-variant", some "o"), ("Ean no.", some "e"),
     ("DESCRIPTION", some "d"), ("Family", some "f")]]⟩

/-- A reference table lacking the mandatory EAN column. -/
def noEanTable : DFrame :=
  ⟨["New Item No.", "OLD Item-variant"],
   [[("New Item No.", some "N"), ("OLD Item-variant", some "O")]]⟩

/-! ## Claim C1 -/

/-- Claim C1, counterexample: for the one-row reference table and input
`"O1 ZZZ"`, the unmatched identifier `ZZZ` yields no result row at all,
rather than one row with an unmatched status: the result table has a single
row (the `O1` match), no cell of any result row holds `ZZZ`, and there is no
match-status column. `ZZZ` is reported only in the separate not-found list. -/
theorem C1_counterexample :
    (resultOf (runApp oneRowTable "O1 ZZZ")).not_found = ["ZZZ"] ∧
    (resultOf (runApp oneRowTable "O1 ZZZ")).ordered.rows.length = 1 ∧
    ((resultOf (runApp oneRowTable "O1 ZZZ")).ordered.rows.filter
        (fun r => (r.map Prod.snd).contains (some "ZZZ"))).length = 0 ∧
    "Match Status" ∉ (resultOf (runApp oneRowTable "O1 ZZZ")).ordered.cols := by
  decide

/-! ## Claim C2 -/

/-- Claim C2, counterexample: for the reference table
`{N1,O1,E1}, {N2,O1,E2}` and input text `"O1 E2 ZZZ"` the result has exactly
two rows, not the four rows the claim states: matching reference rows are
emitted once each, not once per (input identifier × matching row) pair, and
the result carries no input-identifier or match-status field. -/
theorem C2_counterexample :
    (resultOf (runApp exTable "O1 E2 ZZZ")).ordered.rows.length = 2 ∧
    (resultOf (runApp exTable "O1 E2 ZZZ")).ordered.rows.length ≠ 4 ∧
    "Your Input" ∉ (resultOf (runApp exTable "O1 E2 ZZZ")).ordered.cols ∧
    "Match Status" ∉ (resultOf (runApp exTable "O1 E2 ZZZ")).ordered.cols := by
  decide

/-- Claim C2 as amended: the lookup emits each matching reference row once
(a row is matched when its legacy identifier or EAN equals some input
identifier), in reference-table order, with the requested output fields
copied from that row and absent output columns null; for the reference table
`{N1,O1,E1}, {N2,O1,E2}` and input `"O1 E2 ZZZ"` the result is exactly the
two rows `N1/O1/E1` and `N2/O1/E2`, and `ZZZ` goes to the not-found list. -/
theorem C2_row_fanout :
    (resultOf (runApp exTable "O1 E2 ZZZ")).ordered.cols = OUTPUT_HEADERS ∧
    (resultOf (runApp exTable "O1 E2 ZZZ")).ordered.rows.length = 2 ∧
    cellAt (resultOf (runApp exTable "O1 E2 ZZZ")).ordered 0 "New Item No." = some "N1" ∧
    cellAt (resultOf (runApp exTable "O1 E2 ZZZ")).ordered 0 "OLD Item-variant" = some "O1" ∧
    cellAt (resultOf (runApp exTable "O1 E2 ZZZ")).ordered 0 "Ean no." = some "E1" ∧
    cellAt (resultOf (runApp exTable "O1 E2 ZZZ")).ordered 0 "Description" = none ∧
    cellAt (resultOf (runApp exTable "O1 E2 ZZZ")).ordered 1 "New Item No." = some "N2" ∧
    cellAt (resultOf (runApp exTable "O1 E2 ZZZ")).ordered 1 "OLD Item-variant" = some "O1" ∧
    cellAt (resultOf (runApp exTable "O1 E2 ZZZ")).ordered 1 "Ean no." = some "E2" ∧
    (resultOf (runApp exTable "O1 E2 ZZZ")).not_found = ["ZZZ"] := by
  decide

/-! ## Claim C3 -/

/-- Claim C3, counterexample: for a reference table with two rows sharing the
legacy identifier `X1` and input `"X1"`, the reported match count is `2`, the
number of matched reference rows, while the number of unique input
identifiers with at least one match (the count the claim states) is `1`. -/
theorem C3_counterexample :
    (resultOf (runApp dupKeyTable "X1")).idsCount = 1 ∧
    (resultOf (runApp dupKeyTable "X1")).matchCount = 2 ∧
    specUniqueMatchedCount (stripKeyCols dupKeyTable "OLD Item-variant" "Ean no.")
      "OLD Item-variant" "Ean no." (parse_pasted_ids "X1") = 1 := by
  decide

/-- Claim C3 as amended: the identifiers-provided metric is the number of
tokenized, deduplicated input identifiers, and the matched metric is the
number of matched reference rows in the result table (not the number of
unique matched input identifiers); on the spec's end-to-end example the
metrics are `3` and `2`. -/
theorem C3_metrics :
    (∀ (df : DFrame) (raw : String),
      (resultOf (runApp df raw)).matchCount =
        (resultOf (runApp df raw)).ordered.rows.length) ∧
    (resultOf (runApp exTable "O1 E2 ZZZ")).idsCount =
      (parse_pasted_ids "O1 E2 ZZZ").length ∧
    (resultOf (runApp exTable "O1 E2 ZZZ")).idsCount = 3 ∧
    (resultOf (runApp exTable "O1 E2 ZZZ")).matchCount = 2 ∧
    (resultOf (runApp dupKeyTable "X1")).idsCount = 1 ∧
    (resultOf (runApp dupKeyTable "X1")).matchCount = 2 := by
  refine ⟨?_, by decide, by decide, by decide, by decide, by decide⟩
  intro df raw
  unfold runApp
  split
  · rfl
  · split
    · rfl
    · dsimp only
      split
      · rfl
      · rfl

/-! ## Claim C4 -/

/-- Claim C4: raw-mode matching is exact string equality on trimmed values.
Concretely, for a reference table with keys `00123`, `ABC` and `" X9 "`:
input `00123` matches, but `123`, `0123`, `0012`, `001230` and `abc` do not
(leading zeros and case are significant and there is no partial or prefix
matching), while `X9` matches the trimmed key `" X9 "`. In general, every
matched row carries an input identifier verbatim in a key column. -/
theorem C4_exact_match :
    ((resultOf (runApp zeroCaseTable "123 0123 0012 001230 00123 abc ABC X9")).not_found =
        ["123", "0123", "0012", "001230", "abc"] ∧
      (resultOf (runApp zeroCaseTable "123 0123 0012 001230 00123 abc ABC X9")).matchCount = 3) ∧
    ∀ (work : DFrame) (oc ec : String) (ids : List String) (r : Row),
      r ∈ matchedRows work oc ec ids →
      ∃ id ∈ ids, lookupCell r oc = some id ∨ lookupCell r ec = some id := by
  refine ⟨by decide, ?_⟩
  intro work oc ec ids r hr
  rw [matchedRows, List.mem_filter] at hr
  rcases hr with ⟨-, hm⟩
  rw [rowMask, Bool.or_eq_true, decide_eq_true_eq, decide_eq_true_eq] at hm
  rcases hm with hm | hm
  · rcases List.mem_map.mp hm with ⟨id, hid, heq⟩
    exact ⟨id, hid, Or.inl heq.symm⟩
  · rcases List.mem_map.mp hm with ⟨id, hid, heq⟩
    exact ⟨id, hid, Or.inr heq.symm⟩

/-- Witness for C4: the row with key `ABC` is matched for input list
`["ABC"]`, and the general clause yields the verbatim key equality. -/
theorem C4_exact_match_witness :
    (row3 "N2" "ABC" "E2" ∈
      matchedRows (stripKeyCols zeroCaseTable "OLD Item-variant" "Ean no.")
        "OLD Item-variant" "Ean no." ["ABC"]) ∧
    ∃ id ∈ ["ABC"],
      lookupCell (row3 "N2" "ABC" "E2") "OLD Item-variant" = some id ∨
        lookupCell (row3 "N2" "ABC" "E2") "Ean no." = some id :=
  ⟨by decide,
   C4_exact_match.2 (stripKeyCols zeroCaseTable "OLD Item-variant" "Ean no.")
     "OLD Item-variant" "Ean no." ["ABC"] (row3 "N2" "ABC" "E2") (by decide)⟩

/-! ## Claim C8 -/

/-- Claim C8, counterexample: a token wrapped in two layers of double quotes
does not keep its inner quote layer: `""A""` tokenizes to `A`, because
Python `strip('"')` removes every surrounding double quote, not one layer. -/
theorem C8_counterexample :
    parse_pasted_ids "\"\"A\"\"" = ["A"] ∧
    parse_pasted_ids "\"\"A\"\"" ≠ ["\"A\""] := by
  decide

/-- Claim C8 as amended: per-token cleanup first trims surrounding
whitespace, then removes every surrounding double-quote character, then
every surrounding single-quote character. `"ABC123"` yields `ABC123`; two
layers of the same quote character are both removed (`""A""` to `A`,
`''B''` to `B`); a single-quote layer inside a double-quote layer is also
removed (`"'D'"` to `D`), while a double-quote layer inside a single-quote
layer is kept (`'"C"'` to `"C"`). -/
theorem C8_quote_stripping :
    parse_pasted_ids "\"ABC123\"" = ["ABC123"] ∧
    parse_pasted_ids "''B''" = ["B"] ∧
    parse_pasted_ids "\"'D'\"" = ["D"] ∧
    parse_pasted_ids "'\"C\"'" = ["\"C\""] ∧
    parse_pasted_ids "  \"E\"  " = ["E"] ∧
    (∀ t : List Char,
      cleanupToken t =
        pyStripChars (fun c => c == '\'')
          (pyStripChars (fun c => c == '"') (pyStripChars isPyWs t))) := by
  exact ⟨by decide, by decide, by decide, by decide, by decide, fun t => rfl⟩

/-! ## Claim C7 -/

/-- The code's `seen`/`out` loop extends the fold that keeps the first
occurrence of each element. -/
theorem dedupAux_eq_foldl (ts : List String) :
    ∀ acc seen : List String, (∀ t, t ∈ acc ↔ t ∈ seen) →
      acc ++ dedupAux ts seen =
        ts.foldl (fun a t => if t ∈ a then a else a ++ [t]) acc := by
  induction ts with
  | nil => intro acc seen _; simp [dedupAux]
  | cons t ts ih =>
    intro acc seen h
    rw [dedupAux, List.foldl_cons]
    by_cases hmem : t ∈ seen
    · rw [if_pos hmem, if_pos ((h t).mpr hmem)]
      exact ih acc seen h
    · rw [if_neg hmem, if_neg (fun hc => hmem ((h t).mp hc))]
      have hstep := ih (acc ++ [t]) (t :: seen)
        (by intro x; simp [List.mem_append, List.mem_cons, h x, or_comm])
      rw [← hstep, List.append_assoc]
      rfl

/-- The dedup loop emits no duplicates and nothing already seen. -/
theorem dedupAux_nodup (ts : List String) :
    ∀ seen : List String,
      (dedupAux ts seen).Nodup ∧ ∀ t ∈ dedupAux ts seen, t ∉ seen := by
  induction ts with
  | nil => intro seen; simp [dedupAux]
  | cons t ts ih =>
    intro seen
    rw [dedupAux]
    by_cases hmem : t ∈ seen
    · rw [if_pos hmem]; exact ih seen
    · rw [if_neg hmem]
      obtain ⟨hnd, hnot⟩ := ih (t :: seen)
      refine ⟨List.nodup_cons.mpr ⟨fun hc => hnot t hc (List.mem_cons_self t seen), hnd⟩, ?_⟩
      intro x hx
      rcases List.mem_cons.mp hx with rfl | hx
      · exact hmem
      · exact fun hxs => hnot x hx (List.mem_cons_of_mem _ hxs)

/-- Claim C7: the tokenizer deduplicates by exact string equality, keeping
the first occurrence of each token and preserving first-seen order (its
output is the first-occurrence fold of the cleaned token list, and has no
duplicates); `"A, a, A"` yields `["A", "a"]` and an empty input yields an
empty sequence. -/
theorem C7_dedup_first_occurrence :
    (∀ raw : String,
      parse_pasted_ids raw = firstOccurrenceDedup (cleanedTokens raw) ∧
        (parse_pasted_ids raw).Nodup) ∧
    parse_pasted_ids "A, a, A" = ["A", "a"] ∧
    parse_pasted_ids "" = [] := by
  refine ⟨?_, by decide, by decide⟩
  intro raw
  constructor
  · have h := dedupAux_eq_foldl (cleanedTokens raw) [] [] (by simp)
    simpa [parse_pasted_ids, firstOccurrenceDedup] using h
  · exact (dedupAux_nodup (cleanedTokens raw) []).1

/-! ## Claim C9 -/

/-- An input identifier is in `matched_keys` exactly when it appears in one
of the two key columns of the work table. -/
theorem mem_matchedKeys_iff (work : DFrame) (oc ec : String) (ids : List String)
    (x : String) (hx : x ∈ ids) :
    x ∈ matchedKeys work oc ec ids ↔
      (∃ r ∈ work.rows, lookupCell r oc = some x) ∨
        (∃ r ∈ work.rows, lookupCell r ec = some x) := by
  constructor
  · intro h
    rcases List.mem_append.mp h with h | h
    · rcases List.mem_filterMap.mp h with ⟨r, hr, hc⟩
      exact Or.inl ⟨r, (List.mem_filter.mp hr).1, hc⟩
    · rcases List.mem_filterMap.mp h with ⟨r, hr, hc⟩
      exact Or.inr ⟨r, (List.mem_filter.mp hr).1, hc⟩
  · intro h
    have hsome : some x ∈ ids.map some := List.mem_map_of_mem some hx
    rcases h with ⟨r, hr, hc⟩ | ⟨r, hr, hc⟩
    · refine List.mem_append_left _ (List.mem_filterMap.mpr ⟨r, ?_, hc⟩)
      refine List.mem_filter.mpr ⟨hr, ?_⟩
      rw [rowMask, hc]
      simp [hsome]
    · refine List.mem_append_right _ (List.mem_filterMap.mpr ⟨r, ?_, hc⟩)
      refine List.mem_filter.mpr ⟨hr, ?_⟩
      rw [rowMask, hc]
      simp [hsome]

/-- Claim C9: the not-found list is exactly the input identifiers, in input
order, whose value appears in neither key column of the work table — the
`matched_keys` detour neither misses an unmatched input nor misclassifies a
matched one. -/
theorem C9_not_found_exact :
    ∀ (work : DFrame) (oc ec : String) (ids : List String),
      notFound work oc ec ids = specNotFound work oc ec ids := by
  intro work oc ec ids
  rw [notFound, specNotFound]
  apply List.filter_congr
  intro x hx
  rw [decide_eq_decide]
  exact not_congr (mem_matchedKeys_iff work oc ec ids x hx)

/-! ## Claim C1 (amended) -/

/-- Claim C1 as amended: no input identifier is silently dropped, but an
unmatched identifier yields no result row; instead, every input identifier
either appears verbatim in a key column of at least one matched result row
(and is absent from the not-found list), or appears exactly once in the
separate not-found list (and in no matched row). -/
theorem C1_no_silent_drop :
    ∀ (work : DFrame) (oc ec raw id : String),
      id ∈ parse_pasted_ids raw →
      ((∃ r ∈ matchedRows work oc ec (parse_pasted_ids raw),
          lookupCell r oc = some id ∨ lookupCell r ec = some id) ∧
        id ∉ notFound work oc ec (parse_pasted_ids raw)) ∨
      ((notFound work oc ec (parse_pasted_ids raw)).count id = 1 ∧
        ¬∃ r ∈ matchedRows work oc ec (parse_pasted_ids raw),
            lookupCell r oc = some id ∨ lookupCell r ec = some id) := by
  intro work oc ec raw id hid
  by_cases hmk : id ∈ matchedKeys work oc ec (parse_pasted_ids raw)
  · left
    constructor
    · rcases List.mem_append.mp hmk with h | h
      · rcases List.mem_filterMap.mp h with ⟨r, hr, hc⟩
        exact ⟨r, hr, Or.inl hc⟩
      · rcases List.mem_filterMap.mp h with ⟨r, hr, hc⟩
        exact ⟨r, hr, Or.inr hc⟩
    · rw [notFound]
      intro hin
      have hdec := (List.mem_filter.mp hin).2
      rw [decide_eq_true_eq] at hdec
      exact hdec hmk
  · right
    constructor
    · rw [notFound, List.count_filter (by simpa using hmk)]
      exact List.count_eq_one_of_mem (dedupAux_nodup (cleanedTokens raw) []).1 hid
    · rintro ⟨r, hr, hc | hc⟩
      · exact hmk (List.mem_append_left _ (List.mem_filterMap.mpr ⟨r, hr, hc⟩))
      · exact hmk (List.mem_append_right _ (List.mem_filterMap.mpr ⟨r, hr, hc⟩))

/-- Witness for the amended C1 at the one-row table: `ZZZ` is an input
identifier, and the theorem places it in the not-found branch. -/
theorem C1_no_silent_drop_witness :
    ("ZZZ" ∈ parse_pasted_ids "O1 ZZZ") ∧
    (((∃ r ∈ matchedRows (stripKeyCols oneRowTable "OLD Item-variant" "Ean no.")
          "OLD Item-variant" "Ean no." (parse_pasted_ids "O1 ZZZ"),
        lookupCell r "OLD Item-variant" = some "ZZZ" ∨
          lookupCell r "Ean no." = some "ZZZ") ∧
      "ZZZ" ∉ notFound (stripKeyCols oneRowTable "OLD Item-variant" "Ean no.")
          "OLD Item-variant" "Ean no." (parse_pasted_ids "O1 ZZZ")) ∨
    ((notFound (stripKeyCols oneRowTable "OLD Item-variant" "Ean no.")
          "OLD Item-variant" "Ean no." (parse_pasted_ids "O1 ZZZ")).count "ZZZ" = 1 ∧
      ¬∃ r ∈ matchedRows (stripKeyCols oneRowTable "OLD Item-variant" "Ean no.")
          "OLD Item-variant" "Ean no." (parse_pasted_ids "O1 ZZZ"),
          lookupCell r "OLD Item-variant" = some "ZZZ" ∨
            lookupCell r "Ean no." = some "ZZZ")) :=
  ⟨by decide,
   C1_no_silent_drop (stripKeyCols oneRowTable "OLD Item-variant" "Ean no.")
     "OLD Item-variant" "Ean no." "O1 ZZZ" "ZZZ" (by decide)⟩

/-! ## Claim C6 -/

/-- Claim C6: an empty (missing or unreadable) reference table and a missing
mandatory key column are reported as two distinct fatal outcomes before any
matching, and results are only produced when the table is non-empty and both
key columns resolve case-insensitively. -/
theorem C6_fatal_errors :
    (∀ raw : String, runApp ⟨[], []⟩ raw = AppOutcome.loadError) ∧
    (∀ (df : DFrame) (raw : String), dfEmpty df = false →
      (∀ c ∈ df.cols, pyLower c ≠ "ean no.") →
      runApp df raw = AppOutcome.columnError) ∧
    (∀ (df : DFrame) (raw : String), dfEmpty df = false →
      (∀ c ∈ df.cols, pyLower c ≠ "old item-variant") →
      runApp df raw = AppOutcome.columnError) ∧
    (∀ (df : DFrame) (raw : String) (res : LookupResult),
      runApp df raw = AppOutcome.results res →
      dfEmpty df = false ∧
        (∃ c ∈ df.cols, pyLower c = "old item-variant") ∧
        (∃ c ∈ df.cols, pyLower c = "ean no.")) := by
  refine ⟨fun raw => rfl, ?_, ?_, ?_⟩
  · intro df raw hempty hcols
    have hmci : map_case_insensitive df "Ean no." = none := by
      rw [map_case_insensitive]
      have hfil : df.cols.filter (fun c => pyLower c == pyLower "Ean no.") = [] := by
        apply List.filter_eq_nil_iff.mpr
        intro c hc
        simp only [beq_iff_eq]
        intro heq
        exact hcols c hc (by rw [heq]; decide)
      rw [hfil]; rfl
    rw [runApp, if_neg (by simp [hempty]), if_pos (by simp [hmci, truthy])]
  · intro df raw hempty hcols
    have hmci : map_case_insensitive df "OLD Item-variant" = none := by
      rw [map_case_insensitive]
      have hfil : df.cols.filter (fun c => pyLower c == pyLower "OLD Item-variant") = [] := by
        apply List.filter_eq_nil_iff.mpr
        intro c hc
        simp only [beq_iff_eq]
        intro heq
        exact hcols c hc (by rw [heq]; decide)
      rw [hfil]; rfl
    rw [runApp, if_neg (by simp [hempty]), if_pos (by simp [hmci, truthy])]
  · intro df raw res h
    rw [runApp] at h
    by_cases h1 : dfEmpty df = true
    · rw [if_pos h1] at h; cases h
    · rw [if_neg h1] at h
      refine ⟨by simpa using h1, ?_⟩
      by_cases h2 : (truthy (map_case_insensitive df "OLD Item-variant") &&
          truthy (map_case_insensitive df "Ean no.")) = true
      · rw [Bool.and_eq_true] at h2
        obtain ⟨ho, he⟩ := h2
        constructor
        · obtain ⟨a, ha⟩ : ∃ a, map_case_insensitive df "OLD Item-variant" = some a := by
            cases hcm : map_case_insensitive df "OLD Item-variant" with
            | none => rw [hcm] at ho; cases ho
            | some a => exact ⟨a, rfl⟩
          rw [map_case_insensitive] at ha
          obtain ⟨hne, rfl⟩ := List.mem_getLast?_eq_getLast ha
          have hmem := List.getLast_mem hne
          have := List.mem_filter.mp hmem
          refine ⟨_, this.1, ?_⟩
          have hb := this.2
          rw [beq_iff_eq] at hb
          rw [hb]; decide
        · obtain ⟨a, ha⟩ : ∃ a, map_case_insensitive df "Ean no." = some a := by
            cases hcm : map_case_insensitive df "Ean no." with
            | none => rw [hcm] at he; cases he
            | some a => exact ⟨a, rfl⟩
          rw [map_case_insensitive] at ha
          obtain ⟨hne, rfl⟩ := List.mem_getLast?_eq_getLast ha
          have hmem := List.getLast_mem hne
          have := List.mem_filter.mp hmem
          refine ⟨_, this.1, ?_⟩
          have hb := this.2
          rw [beq_iff_eq] at hb
          rw [hb]; decide
      · have h3 : (truthy (map_case_insensitive df "OLD Item-variant") &&
            truthy (map_case_insensitive df "Ean no.")) = false := Bool.eq_false_iff.mpr h2
        rw [if_pos (by rw [h3]; rfl)] at h
        cases h

/-- Witness for C6 at the table lacking an EAN column: the lookup reports the
missing-column fatal error. -/
theorem C6_fatal_errors_witness :
    dfEmpty noEanTable = false ∧
    (∀ c ∈ noEanTable.cols, pyLower c ≠ "ean no.") ∧
    runApp noEanTable "X" = AppOutcome.columnError :=
  ⟨by decide, by decide, C6_fatal_errors.2.1 noEanTable "X" (by decide) (by decide)⟩

/-! ## Claim C10 -/

/-- `(String.mk l).toList = l`. -/
theorem mk_toList (l : List Char) : (String.mk l).toList = l := rfl

/-- The empty string has no characters. -/
theorem empty_toList : ("" : String).toList = [] := rfl

/-- `dropWhile` is idempotent. -/
theorem dropWhile_idem (p : Char → Bool) (l : List Char) :
    (l.dropWhile p).dropWhile p = l.dropWhile p := by
  induction l with
  | nil => rfl
  | cons c t ih =>
    by_cases h : p c = true
    · rw [List.dropWhile_cons_of_pos h]; exact ih
    · rw [List.dropWhile_cons_of_neg h, List.dropWhile_cons_of_neg h]

/-- The head of `dropWhile p` does not satisfy `p`. -/
theorem head?_dropWhile_false (p : Char → Bool) (l : List Char) (x : Char)
    (h : x ∈ (l.dropWhile p).head?) : p x = false := by
  induction l with
  | nil => simp at h
  | cons c t ih =>
    by_cases hc : p c = true
    · rw [List.dropWhile_cons_of_pos hc] at h; exact ih h
    · rw [List.dropWhile_cons_of_neg hc] at h
      simp at h
      rw [h] at hc
      simpa using hc

/-- A list whose head does not satisfy `p` is untouched by `dropWhile p`. -/
theorem dropWhile_eq_self_of_head (p : Char → Bool) (l : List Char)
    (h : ∀ x ∈ l.head?, p x = false) : l.dropWhile p = l := by
  cases l with
  | nil => rfl
  | cons c t =>
    apply List.dropWhile_cons_of_neg
    have hc := h c (by simp)
    simp [hc]

/-- The head of an append with a non-empty left part. -/
theorem head?_append_left (l₁ l₂ : List Char) (h : l₁ ≠ []) :
    (l₁ ++ l₂).head? = l₁.head? := by
  cases l₁ with
  | nil => exact absurd rfl h
  | cons a t => rfl

/-- Python two-sided character stripping is idempotent. -/
theorem pyStripChars_fix (p : Char → Bool) (l : List Char) :
    pyStripChars p (pyStripChars p l) = pyStripChars p l := by
  have key : (((l.dropWhile p).reverse.dropWhile p).reverse).dropWhile p =
      ((l.dropWhile p).reverse.dropWhile p).reverse := by
    obtain ⟨t, ht⟩ := List.dropWhile_suffix (l := (l.dropWhile p).reverse) p
    have hm : l.dropWhile p =
        ((l.dropWhile p).reverse.dropWhile p).reverse ++ t.reverse := by
      have h2 := congrArg List.reverse ht
      rw [List.reverse_append, List.reverse_reverse] at h2
      exact h2.symm
    apply dropWhile_eq_self_of_head
    intro x hx
    apply head?_dropWhile_false p l x
    rw [hm]
    by_cases hC : ((l.dropWhile p).reverse.dropWhile p).reverse = []
    · rw [hC] at hx; simp at hx
    · rw [head?_append_left _ _ hC]; exact hx
  show ((((((l.dropWhile p).reverse.dropWhile p).reverse).dropWhile p).reverse).dropWhile
      p).reverse = ((l.dropWhile p).reverse.dropWhile p).reverse
  rw [key, List.reverse_reverse, dropWhile_idem]

/-- A list whose two ends fail `p` is untouched by two-sided stripping. -/
theorem pyStripChars_eq_self (p : Char → Bool) (l : List Char)
    (h1 : ∀ x ∈ l.head?, p x = false) (h2 : ∀ x ∈ l.getLast?, p x = false) :
    pyStripChars p l = l := by
  rw [pyStripChars, dropWhile_eq_self_of_head p l h1,
    dropWhile_eq_self_of_head p l.reverse
      (by intro x hx; rw [List.head?_reverse] at hx; exact h2 x hx),
    List.reverse_reverse]

/-- A list is a prefix of itself extended on the right. -/
theorem isPrefixOf_append_self (l t : List Char) : List.isPrefixOf l (l ++ t) = true := by
  induction l with
  | nil => cases t <;> simp [List.isPrefixOf]
  | cons a l ih => simp [List.isPrefixOf, ih]

/-- Substring search succeeds anywhere in the right part of an append. -/
theorem hasSub_append_left (n s t : List Char) (h : hasSub n t = true) :
    hasSub n (s ++ t) = true := by
  induction s with
  | nil => exact h
  | cons c s ih =>
    rw [List.cons_append, hasSub, Bool.or_eq_true]
    exact Or.inr ih

/-- A list contains itself as a substring of any right extension. -/
theorem hasSub_self_append (n t : List Char) : hasSub n (n ++ t) = true := by
  cases n with
  | nil => cases t <;> simp [hasSub, List.isPrefixOf]
  | cons a m =>
    rw [List.cons_append, hasSub, Bool.or_eq_true]
    exact Or.inl (isPrefixOf_append_self (a :: m) t)

/-- A successful gid search returns a non-empty, all-digit group. -/
theorem searchGid_digits (g : List Char) :
    ∀ l : List Char, searchGid l = some g → g ≠ [] ∧ ∀ x ∈ g, x.isDigit = true := by
  intro l
  induction l with
  | nil => intro h; cases h
  | cons c t ih =>
    intro h
    simp only [searchGid] at h
    by_cases hc : ((c == '?' || c == '&' || c == '#') &&
        List.isPrefixOf ['g', 'i', 'd', '='] t) = true
    · rw [if_pos hc] at h
      by_cases hrun : ((t.drop 4).takeWhile Char.isDigit).isEmpty = true
      · rw [if_pos hrun] at h; exact ih h
      · rw [if_neg hrun] at h
        injection h with h
        subst h
        refine ⟨by simpa using hrun, ?_⟩
        intro x hx
        exact List.mem_takeWhile_imp hx
    · rw [if_neg hc] at h; exact ih h

/-- A decimal digit is not Python whitespace. -/
theorem isDigit_not_pyWs (c : Char) (h : c.isDigit = true) : isPyWs c = false := by
  simp only [Char.isDigit, decide_eq_true_eq, Bool.and_eq_true] at h
  have h1 : (48 : UInt32).toNat ≤ c.val.toNat := h.1
  have h2 : c.val.toNat ≤ (57 : UInt32).toNat := h.2
  have e1 : (48 : UInt32).toNat = 48 := rfl
  have e2 : (57 : UInt32).toNat = 57 := rfl
  simp only [isPyWs, Bool.or_eq_false_iff, decide_eq_false_iff_not, Char.toNat]
  omega

/-- Claim C10: the Google-Sheets URL rewrite is idempotent — applying
`to_csv_export_url` twice returns the same result as applying it once, since
a URL already containing `export?format=csv` is returned unchanged after
trimming and every rewritten URL contains that marker. -/
theorem C10_idempotent (url : String) :
    to_csv_export_url (to_csv_export_url url) = to_csv_export_url url := by
  by_cases h0 : url = ""
  · rw [h0]; decide
  · by_cases h1 : hasSub CSV_MARKER (stripList url.toList) = true
    · have hfu : to_csv_export_url url = String.mk (stripList url.toList) := by
        rw [to_csv_export_url, if_neg h0, if_pos h1]
      rw [hfu]
      have hne : stripList url.toList ≠ [] := by
        intro hnil
        rw [hnil] at h1
        exact absurd h1 (by decide)
      have hmkne : String.mk (stripList url.toList) ≠ "" := by
        intro he
        apply hne
        rw [← mk_toList (stripList url.toList), he, empty_toList]
      have hsu : stripList (String.mk (stripList url.toList)).toList =
          stripList url.toList := pyStripChars_fix isPyWs url.toList
      rw [to_csv_export_url, if_neg hmkne, hsu, if_pos h1]
    · cases hs : searchSheetId (stripList url.toList) with
      | none =>
        have hfu : to_csv_export_url url = String.mk (stripList url.toList) := by
          rw [to_csv_export_url, if_neg h0, if_neg h1, hs]
        rw [hfu]
        by_cases hnil : stripList url.toList = []
        · rw [hnil]; decide
        · have hmkne : String.mk (stripList url.toList) ≠ "" := by
            intro he
            apply hnil
            rw [← mk_toList (stripList url.toList), he, empty_toList]
          have hsu : stripList (String.mk (stripList url.toList)).toList =
              stripList url.toList := pyStripChars_fix isPyWs url.toList
          rw [to_csv_export_url, if_neg hmkne, hsu, if_neg h1, hs]
      | some sid =>
        have hfu : to_csv_export_url url =
            String.mk (SHEET_LIT ++ sid ++ "/export?format=csv&gid=".toList ++
              ((searchGid (stripList url.toList)).getD ['0'])) := by
          rw [to_csv_export_url, if_neg h0, if_neg h1, hs]
        set g := (searchGid (stripList url.toList)).getD ['0'] with hg
        have hgprops : g ≠ [] ∧ ∀ x ∈ g, x.isDigit = true := by
          rw [hg]
          cases hsg : searchGid (stripList url.toList) with
          | none => exact ⟨by decide, by decide⟩
          | some g0 => exact searchGid_digits g0 _ hsg
        set R := SHEET_LIT ++ sid ++ "/export?format=csv&gid=".toList ++ g with hR
        have hhead : R.head? = some 'h' := by rw [hR]; rfl
        have hRne : R ≠ [] := by
          intro hnil; rw [hnil] at hhead; cases hhead
        have hlast : R.getLast? = g.getLast? := by
          rw [hR]
          exact List.getLast?_append_of_ne_nil _ hgprops.1
        have hsub : hasSub CSV_MARKER R = true := by
          rw [hR, List.append_assoc, List.append_assoc]
          apply hasSub_append_left
          apply hasSub_append_left
          have hM : "/export?format=csv&gid=".toList =
              '/' :: (CSV_MARKER ++ "&gid=".toList) := by decide
          rw [hM, List.cons_append, List.append_assoc, hasSub, Bool.or_eq_true]
          exact Or.inr (hasSub_self_append _ _)
        have hstripR : stripList R = R := by
          rw [stripList]
          apply pyStripChars_eq_self
          · intro x hx
            rw [hhead] at hx
            simp only [Option.mem_def, Option.some.injEq] at hx
            rw [← hx]; decide
          · intro x hx
            rw [hlast] at hx
            have hxg : x ∈ g := by
              obtain ⟨h', rfl⟩ := List.mem_getLast?_eq_getLast hx
              exact List.getLast_mem h'
            exact isDigit_not_pyWs x (hgprops.2 x hxg)
        rw [hfu]
        have hmkne : String.mk R ≠ "" := by
          intro he
          apply hRne
          rw [← mk_toList R, he, empty_toList]
        have hsR : stripList (String.mk R).toList = R := by
          rw [mk_toList]; exact hstripR
        rw [to_csv_export_url, if_neg hmkne, hsR, if_pos hsub]

/-! ## Claim C5 -/

/-- Cell access on the empty row. -/
theorem lookupCell_nil (c : String) : lookupCell [] c = none := rfl

/-- Cell access on a row extended on the left. -/
theorem lookupCell_cons (p : String × Option String) (r : Row) (c : String) :
    lookupCell (p :: r) c = if p.1 = c then p.2 else lookupCell r c := by
  by_cases h : p.1 = c
  · have hb : (p.1 == c) = true := by simpa using h
    rw [lookupCell, List.find?_cons, hb, if_pos h]
  · have hb : (p.1 == c) = false := by simpa using h
    rw [lookupCell, List.find?_cons, hb, if_neg h, lookupCell]

/-- Nulling a column through `map` behaves as a pointwise update. -/
theorem lookupCell_map_null (h : String) (r : Row) (c : String) :
    lookupCell (r.map (fun p => if p.1 == h then (p.1, none) else p)) c =
      if c = h then none else lookupCell r c := by
  induction r with
  | nil => by_cases hc : c = h <;> simp [hc, lookupCell_nil]
  | cons p r ih =>
    simp only [List.map_cons]
    by_cases hph : p.1 = h
    · have hb : (p.1 == h) = true := by simpa using hph
      have hhead : (if p.1 == h then (p.1, (none : Option String)) else p) = (p.1, none) :=
        if_pos hb
      rw [hhead, lookupCell_cons, lookupCell_cons]
      by_cases hpc : p.1 = c
      · have hch : c = h := by rw [← hpc]; exact hph
        rw [if_pos (show ((p.1, (none : Option String)).1 = c) from hpc), if_pos hch]
      · have hch : ¬c = h := fun hch => hpc (hph.trans hch.symm)
        rw [if_neg (show ¬((p.1, (none : Option String)).1 = c) from hpc), ih,
          if_neg hch, if_neg hch, if_neg hpc]
    · have hnb : ¬(p.1 == h) = true := by simpa using hph
      have hhead : (if p.1 == h then (p.1, (none : Option String)) else p) = p :=
        if_neg hnb
      rw [hhead, lookupCell_cons, lookupCell_cons]
      by_cases hpc : p.1 = c
      · have hch : ¬c = h := fun hch => hph (hpc.trans hch)
        rw [if_pos hpc, if_neg hch, if_pos hpc]
      · rw [if_neg hpc, if_neg hpc, ih]

/-- Appending a null entry for an absent column behaves as a pointwise
update. -/
theorem lookupCell_append_null (h : String) (r : Row) (c : String)
    (he : ∀ x ∈ r, x.1 ≠ h) :
    lookupCell (r ++ [(h, none)]) c = if c = h then none else lookupCell r c := by
  induction r with
  | nil =>
    rw [List.nil_append, lookupCell_cons]
    by_cases hc : c = h
    · rw [if_pos hc.symm, if_pos hc]
    · rw [if_neg (fun hh : h = c => hc hh.symm), if_neg hc]
  | cons p r ih =>
    have hp := he p (List.mem_cons_self p r)
    rw [List.cons_append, lookupCell_cons, lookupCell_cons]
    by_cases hpc : p.1 = c
    · rw [if_pos hpc, if_pos hpc, if_neg (fun hch : c = h => hp (hpc.symm ▸ hch ▸ rfl : p.1 = h))]
    · rw [if_neg hpc, if_neg hpc, ih (fun x hx => he x (List.mem_cons_of_mem p hx))]

/-- `df[h] = None` on one row, as a pointwise update of cell access. -/
theorem lookupCell_setNullRow (h : String) (r : Row) (c : String) :
    lookupCell (setNullRow h r) c = if c = h then none else lookupCell r c := by
  rw [setNullRow]
  by_cases hf : (r.find? (fun p => p.1 == h)).isSome = true
  · rw [if_pos hf]
    exact lookupCell_map_null h r c
  · rw [if_neg hf]
    apply lookupCell_append_null
    intro x hx hxh
    have hnone := Option.not_isSome_iff_eq_none.mp hf
    have hfx := List.find?_eq_none.mp hnone x hx
    simp [hxh] at hfx

/-- The rows of `df[h] = None`. -/
theorem dfSetNull_rows (d : DFrame) (h : String) :
    (dfSetNull d h).rows = d.rows.map (setNullRow h) := rfl

/-- `df[h] = None` only ever adds a column. -/
theorem dfSetNull_cols_mem (d : DFrame) (h c : String) (hc : c ∈ d.cols) :
    c ∈ (dfSetNull d h).cols := by
  rw [dfSetNull]
  dsimp only
  split
  · exact hc
  · exact List.mem_append_left _ hc

/-- The selection loop's column list: the resolved column when one exists,
the requested header itself otherwise. -/
theorem sorLoop_snd (colmap : String → Option String) :
    ∀ (hs : List String) (d : DFrame),
      (∀ h ∈ hs, ∀ a, colmap h = some a → a ∈ d.cols ∧ a ≠ "") →
      (sorLoop colmap d hs).2 = hs.map (fun h => (colmap h).getD h) := by
  intro hs
  induction hs with
  | nil => intro d _; rfl
  | cons h hs ih =>
    intro d hpre
    have hpre2 : ∀ h2 ∈ hs, ∀ a, colmap h2 = some a → a ∈ d.cols ∧ a ≠ "" :=
      fun h2 hm a ha => hpre h2 (List.mem_cons_of_mem _ hm) a ha
    cases hc : colmap h with
    | none =>
      have htail := ih (dfSetNull d h)
        (fun h2 hm a ha =>
          ⟨dfSetNull_cols_mem d h a (hpre2 h2 hm a ha).1, (hpre2 h2 hm a ha).2⟩)
      simp only [sorLoop, hc, List.map_cons, Option.getD_none]
      exact congrArg (List.cons h) htail
    | some a =>
      obtain ⟨hmem, hne⟩ := hpre h (List.mem_cons_self h hs) a hc
      simp only [sorLoop, hc, List.map_cons, Option.getD_some]
      rw [if_pos ⟨hne, hmem⟩]
      exact congrArg (List.cons a) (ih d hpre2)

/-- The selection loop preserves the number of rows. -/
theorem sorLoop_rows_length (colmap : String → Option String) :
    ∀ (hs : List String) (d : DFrame),
      (sorLoop colmap d hs).1.rows.length = d.rows.length := by
  intro hs
  induction hs with
  | nil => intro d; rfl
  | cons h hs ih =>
    intro d
    have hset : (sorLoop colmap (dfSetNull d h) hs).1.rows.length = d.rows.length := by
      rw [ih (dfSetNull d h), dfSetNull_rows, List.length_map]
    cases hc : colmap h with
    | none =>
      simp only [sorLoop, hc]
      exact hset
    | some a =>
      simp only [sorLoop, hc]
      split
      · exact ih d
      · exact hset

/-- The selection loop preserves a column that is already all null. -/
theorem sorLoop_preserve_null (colmap : String → Option String) (hcol : String) :
    ∀ (hs : List String) (d : DFrame),
      (∀ r ∈ d.rows, lookupCell r hcol = none) →
      ∀ r ∈ (sorLoop colmap d hs).1.rows, lookupCell r hcol = none := by
  intro hs
  induction hs with
  | nil => intro d hd; exact hd
  | cons h hs ih =>
    intro d hd
    have hd2 : ∀ r ∈ (dfSetNull d h).rows, lookupCell r hcol = none := by
      intro r hr
      rw [dfSetNull_rows] at hr
      obtain ⟨r0, hr0, rfl⟩ := List.mem_map.mp hr
      rw [lookupCell_setNullRow]
      split
      · rfl
      · exact hd r0 hr0
    cases hc : colmap h with
    | none =>
      simp only [sorLoop, hc]
      exact ih (dfSetNull d h) hd2
    | some a =>
      simp only [sorLoop, hc]
      split
      · exact ih d hd
      · exact ih (dfSetNull d h) hd2

/-- A requested header with no resolved column ends up all null after the
selection loop. -/
theorem sorLoop_null_of_none (colmap : String → Option String) (hcol : String) :
    ∀ (hs : List String) (d : DFrame), hcol ∈ hs → colmap hcol = none →
      ∀ r ∈ (sorLoop colmap d hs).1.rows, lookupCell r hcol = none := by
  intro hs
  induction hs with
  | nil => intro d hm; cases hm
  | cons h hs ih =>
    intro d hm hnone
    rcases List.mem_cons.mp hm with rfl | hmem
    · have hset : ∀ r ∈ (dfSetNull d hcol).rows, lookupCell r hcol = none := by
        intro r hr
        rw [dfSetNull_rows] at hr
        obtain ⟨r0, hr0, rfl⟩ := List.mem_map.mp hr
        rw [lookupCell_setNullRow, if_pos rfl]
      simp only [sorLoop, hnone]
      exact sorLoop_preserve_null colmap hcol hs (dfSetNull d hcol) hset
    · cases hc : colmap h with
      | none =>
        simp only [sorLoop, hc]
        exact ih (dfSetNull d h) hmem hnone
      | some a =>
        simp only [sorLoop, hc]
        split
        · exact ih d hmem hnone
        · exact ih (dfSetNull d h) hmem hnone

/-- A successful case-insensitive resolution returns an existing column whose
lowercase form is the requested name's lowercase form. -/
theorem mci_some (df : DFrame) (name a : String)
    (h : map_case_insensitive df name = some a) :
    a ∈ df.cols ∧ pyLower a = pyLower name := by
  rw [map_case_insensitive] at h
  obtain ⟨hne, rfl⟩ := List.mem_getLast?_eq_getLast h
  have hmem := List.getLast_mem hne
  have hmf := List.mem_filter.mp hmem
  exact ⟨hmf.1, by simpa using hmf.2⟩

/-- The requested output headers are distinct. -/
theorem headers_nodup : OUTPUT_HEADERS.Nodup := by decide

/-- The requested output headers have distinct lowercase forms. -/
theorem headers_lower_nodup : (OUTPUT_HEADERS.map pyLower).Nodup := by decide

/-- No requested output header lowercases to the empty string. -/
theorem headers_lower_ne_empty : ∀ h ∈ OUTPUT_HEADERS, pyLower h ≠ "" := by decide

/-- Lowercasing is injective on the requested output headers. -/
theorem headers_lower_inj {h1 h2 : String} (m1 : h1 ∈ OUTPUT_HEADERS)
    (m2 : h2 ∈ OUTPUT_HEADERS) (he : pyLower h1 = pyLower h2) : h1 = h2 :=
  List.inj_on_of_nodup_map headers_lower_nodup m1 m2 he

/-- The resolved column for any requested header exists and is non-empty. -/
theorem mci_pre (df : DFrame) :
    ∀ h ∈ OUTPUT_HEADERS, ∀ a, map_case_insensitive df h = some a →
      a ∈ df.cols ∧ a ≠ "" := by
  intro h hm a ha
  obtain ⟨hc, hl⟩ := mci_some df h a ha
  refine ⟨hc, fun hae => headers_lower_ne_empty h hm ?_⟩
  rw [← hl, hae]
  rfl

/-- A filter whose predicate holds exactly at one member of a duplicate-free
list returns that member alone. -/
theorem filter_eq_single (p : String → Bool) (h : String) :
    ∀ l : List String, l.Nodup → h ∈ l → (∀ x ∈ l, p x = true ↔ x = h) →
      l.filter p = [h] := by
  intro l
  induction l with
  | nil => intro _ hm; cases hm
  | cons x l ih =>
    intro hnd hm hiff
    by_cases hx : x = h
    · subst hx
      rw [List.filter_cons_of_pos ((hiff x (List.mem_cons_self x l)).mpr rfl)]
      have hrest : l.filter p = [] := by
        apply List.filter_eq_nil_iff.mpr
        intro y hy hpy
        have hyx := (hiff y (List.mem_cons_of_mem x hy)).mp hpy
        exact (List.nodup_cons.mp hnd).1 (hyx ▸ hy)
      rw [hrest]
    · rw [List.filter_cons_of_neg
        (fun hpx => hx ((hiff x (List.mem_cons_self x l)).mp hpx))]
      have hml : h ∈ l := by
        rcases List.mem_cons.mp hm with rfl | hml
        · exact absurd rfl hx
        · exact hml
      exact ih (List.nodup_cons.mp hnd).2 hml
        (fun y hy => hiff y (List.mem_cons_of_mem x hy))

/-- Renaming sends the selected column of each requested header back to that
header. -/
theorem renameTarget_getD (df : DFrame) (h : String) (hmem : h ∈ OUTPUT_HEADERS) :
    renameTarget (fun n => map_case_insensitive df n)
      ((map_case_insensitive df h).getD h) = h := by
  cases hc : map_case_insensitive df h with
  | none =>
    simp only [Option.getD_none]
    rw [renameTarget]
    have hfil : OUTPUT_HEADERS.filter
        (fun h2 => map_case_insensitive df h2 == some h && h != h2 && h != "") = [] := by
      apply List.filter_eq_nil_iff.mpr
      intro h2 hm2 hcontra
      rw [Bool.and_eq_true, Bool.and_eq_true, beq_iff_eq, bne_iff_ne] at hcontra
      obtain ⟨⟨hbeq, hbne⟩, -⟩ := hcontra
      obtain ⟨-, hl⟩ := mci_some df h2 h hbeq
      exact hbne (headers_lower_inj hmem hm2 hl)
    rw [hfil]
    rfl
  | some a =>
    simp only [Option.getD_some]
    obtain ⟨hac, hal⟩ := mci_some df h a hc
    rw [renameTarget]
    by_cases hah : a = h
    · subst hah
      have hfil : OUTPUT_HEADERS.filter
          (fun h2 => map_case_insensitive df h2 == some a && a != h2 && a != "") = [] := by
        apply List.filter_eq_nil_iff.mpr
        intro h2 hm2 hcontra
        rw [Bool.and_eq_true, Bool.and_eq_true, beq_iff_eq, bne_iff_ne] at hcontra
        obtain ⟨⟨hbeq, hbne⟩, -⟩ := hcontra
        obtain ⟨-, hl⟩ := mci_some df h2 a hbeq
        exact hbne (headers_lower_inj hmem hm2 hl)
      rw [hfil]
      rfl
    · have hane : a ≠ "" := by
        intro hae
        apply headers_lower_ne_empty h hmem
        rw [← hal, hae]
        rfl
      have hfil : OUTPUT_HEADERS.filter
          (fun h2 => map_case_insensitive df h2 == some a && a != h2 && a != "") = [h] := by
        apply filter_eq_single _ _ OUTPUT_HEADERS headers_nodup hmem
        intro x hx
        constructor
        · intro hpx
          rw [Bool.and_eq_true, Bool.and_eq_true, beq_iff_eq] at hpx
          obtain ⟨⟨hbeq, -⟩, -⟩ := hpx
          obtain ⟨-, hl2⟩ := mci_some df x a hbeq
          exact headers_lower_inj hx hmem (hl2.symm.trans hal)
        · intro hxh
          subst hxh
          rw [Bool.and_eq_true, Bool.and_eq_true, beq_iff_eq, bne_iff_ne, bne_iff_ne]
          exact ⟨⟨hc, hah⟩, hane⟩
      rw [hfil]
      rfl

/-- `select_order_and_rename` with its `let` bindings expanded. -/
theorem sor_eq (df : DFrame) (colmap : String → Option String) :
    select_order_and_rename df colmap =
      ⟨((sorLoop colmap df OUTPUT_HEADERS).2.map
          (fun c => (c, renameTarget colmap c))).map Prod.snd,
       (sorLoop colmap df OUTPUT_HEADERS).1.rows.map (fun r =>
         ((sorLoop colmap df OUTPUT_HEADERS).2.map
             (fun c => (c, renameTarget colmap c))).map
           (fun q => (q.2, lookupCell r q.1)))⟩ := rfl

/-- The result of `select_order_and_rename` exposes exactly the requested
output headers, in order. -/
theorem sor_cols (df : DFrame) :
    (select_order_and_rename df (fun n => map_case_insensitive df n)).cols =
      OUTPUT_HEADERS := by
  rw [sor_eq]
  dsimp only
  rw [sorLoop_snd _ OUTPUT_HEADERS df (mci_pre df), List.map_map, List.map_map]
  refine Eq.trans (List.map_congr_left ?_) (List.map_id OUTPUT_HEADERS)
  intro h hm
  exact renameTarget_getD df h hm

/-- Cell access on a row built by the select/rename step. -/
theorem lookupCell_selected (pairs : List (String × String)) (r : Row) (c : String) :
    lookupCell (pairs.map (fun q => (q.2, lookupCell r q.1))) c =
      match pairs.find? (fun q => q.2 == c) with
      | some q => lookupCell r q.1
      | none => none := by
  induction pairs with
  | nil => rfl
  | cons q ps ih =>
    rw [List.map_cons, lookupCell_cons]
    by_cases hq : q.2 = c
    · rw [if_pos hq, List.find?_cons_of_pos _ (by simpa using hq)]
    · rw [if_neg hq, List.find?_cons_of_neg _ (by simpa using hq), ih]

/-- Searching a tagged pair list by its second component finds the tag. -/
theorem find?_pair_map (f : String → String) :
    ∀ (l : List String) (h : String), h ∈ l →
      (l.map (fun x => (f x, x))).find? (fun q => q.2 == h) = some (f h, h) := by
  intro l
  induction l with
  | nil => intro h hm; cases hm
  | cons x l ih =>
    intro h hm
    rw [List.map_cons]
    by_cases hx : x = h
    · subst hx
      rw [List.find?_cons_of_pos _ (by simp)]
    · rw [List.find?_cons_of_neg _ (by simpa using hx)]
      rcases List.mem_cons.mp hm with rfl | hml
      · exact absurd rfl hx
      · exact ih h hml

/-- For a requested header with no case-insensitive match in the reference
table, every result row of `select_order_and_rename` is null at that
header. -/
theorem sor_null_col (df : DFrame) (h : String) (hmem : h ∈ OUTPUT_HEADERS)
    (hnc : ∀ c ∈ df.cols, pyLower c ≠ pyLower h) :
    ∀ r ∈ (select_order_and_rename df (fun n => map_case_insensitive df n)).rows,
      lookupCell r h = none := by
  have hgnone : map_case_insensitive df h = none := by
    rw [map_case_insensitive]
    have hfil : df.cols.filter (fun c => pyLower c == pyLower h) = [] := by
      apply List.filter_eq_nil_iff.mpr
      intro c hcm
      simpa using hnc c hcm
    rw [hfil]
    rfl
  intro r hr
  rw [sor_eq] at hr
  dsimp only at hr
  obtain ⟨r0, hr0, rfl⟩ := List.mem_map.mp hr
  rw [lookupCell_selected]
  have hpairs : (sorLoop (fun n => map_case_insensitive df n) df OUTPUT_HEADERS).2.map
      (fun c => (c, renameTarget (fun n => map_case_insensitive df n) c)) =
      OUTPUT_HEADERS.map (fun h2 => ((map_case_insensitive df h2).getD h2, h2)) := by
    rw [sorLoop_snd _ OUTPUT_HEADERS df (mci_pre df), List.map_map]
    apply List.map_congr_left
    intro h2 hm2
    show ((map_case_insensitive df h2).getD h2,
      renameTarget (fun n => map_case_insensitive df n)
        ((map_case_insensitive df h2).getD h2)) = _
    rw [renameTarget_getD df h2 hm2]
  rw [hpairs, find?_pair_map (fun h2 => (map_case_insensitive df h2).getD h2)
      OUTPUT_HEADERS h hmem]
  simp only [hgnone, Option.getD_none]
  exact sorLoop_null_of_none _ h OUTPUT_HEADERS df hmem hgnone r0 hr0

/-- Claim C5: a requested output column with no case-insensitive match among
the reference table's columns is still produced, in its fixed position (the
output column list is exactly the requested headers in order), null in every
result row, with the row count unchanged and no failure; and resolution of
output columns against the table is case-insensitive (a resolved column is
an existing column equal to the request up to lowercasing). -/
theorem C5_null_output_columns :
    (∀ (df : DFrame) (h : String), h ∈ OUTPUT_HEADERS →
      (∀ c ∈ df.cols, pyLower c ≠ pyLower h) →
      (select_order_and_rename df (fun n => map_case_insensitive df n)).cols =
          OUTPUT_HEADERS ∧
        (select_order_and_rename df (fun n => map_case_insensitive df n)).rows.length =
          df.rows.length ∧
        ∀ r ∈ (select_order_and_rename df (fun n => map_case_insensitive df n)).rows,
          lookupCell r h = none) ∧
    (∀ (df : DFrame) (name a : String),
      map_case_insensitive df name = some a → a ∈ df.cols ∧ pyLower a = pyLower name) := by
  refine ⟨?_, mci_some⟩
  intro df h hmem hnc
  refine ⟨sor_cols df, ?_, sor_null_col df h hmem hnc⟩
  rw [sor_eq]
  dsimp only
  rw [List.length_map]
  exact sorLoop_rows_length _ OUTPUT_HEADERS df

/-- Witness for C5: the mixed-case table lacking a `Category` column yields
the full header list with a null `Category` column. -/
theorem C5_null_output_columns_witness :
    ("Category" ∈ OUTPUT_HEADERS) ∧
    (∀ c ∈ caseTable.cols, pyLower c ≠ pyLower "Category") ∧
    ((select_order_and_rename caseTable
        (fun n => map_case_insensitive caseTable n)).cols = OUTPUT_HEADERS ∧
      (select_order_and_rename caseTable
        (fun n => map_case_insensitive caseTable n)).rows.length =
          caseTable.rows.length ∧
      ∀ r ∈ (select_order_and_rename caseTable
          (fun n => map_case_insensitive caseTable n)).rows,
        lookupCell r "Category" = none) :=
  ⟨by decide, by decide,
   C5_null_output_columns.1 caseTable "Category" (by decide) (by decide)⟩

end Muuto
